import Mathlib

/-!
# Verification of the model-lifecycle core (registry, promotion, drift monitor)

Shallow embedding of the repository's monitoring and model-registry code:

* `src/src/monitoring.py` — `ModelMonitor` (drift buffer, drift scoring,
  Prometheus counters/gauges, drift report).
* `src/scripts/reset_to_baseline.py` — the archive-then-promote sequence of
  registry transitions.
* `src/src/model_registry.py` is referenced by the training scripts but is not
  part of the provided sources; its operations (`register`,
  `transition_to_production`, `auto_promote_if_better`) are modelled from the
  spec where needed, each such definition saying so in its doc comment.

Floating-point values are modelled as rationals; Python dicts keyed by strings
as association lists; the MLflow registry state for one model name as a list of
version records.
-/

/-! ## Drift monitor: data model (`src/src/monitoring.py`) -/

/-- A recorded feature vector: feature name to numeric value.  The source
stores raw dicts and later restricts drift scoring to numeric columns; the
embedding keeps the numeric features, which is what drift scoring reads. -/
abbrev FeatureRow := List (String × ℚ)

/-- The reference distribution: per feature name, the reference column's mean
and standard deviation (the source computes these with pandas `mean` / `std`
over the loaded reference frame; drift scoring consumes only these two
statistics per feature). -/
abbrev RefData := List (String × ℚ × ℚ)

/-- State of `ModelMonitor` (`monitoring.py`, `__init__`): the optional
reference data, the bounded drift buffer, and `max_buffer_size` (always set to
1000 by `__init__`). -/
structure ModelMonitor where
  reference_data : Option RefData
  current_data_buffer : List FeatureRow
  max_buffer_size : Nat
deriving DecidableEq, Repr

/-- `_load_reference_data` (`monitoring.py` lines 56-65): `pd.read_csv` may
fail; the source catches every exception and silently sets `reference_data`
to `None`.  The possible failure of the read is the `Except` argument. -/
def load_reference_data (readResult : Except String RefData) : Option RefData :=
  match readResult with
  | Except.ok df => some df
  | Except.error _ => Option.none

/-- `ModelMonitor.__init__`: empty buffer, capacity 1000, reference loaded via
`_load_reference_data`. -/
def initMonitor (readResult : Except String RefData) : ModelMonitor :=
  { reference_data := load_reference_data readResult
    current_data_buffer := []
    max_buffer_size := 1000 }

/-! ## Prometheus metric state (`monitoring.py` module-level metric objects) -/

/-- The Prometheus metric state touched by `record_prediction`:
`model_predictions_total` (labelled by model version and outcome) and the
observations of `model_prediction_latency_seconds` (labelled by version). -/
structure PromMetrics where
  predictions_total : String → String → Nat
  latency_values : String → List ℚ

/-- The initial metric state: all counters zero, no latency observations. -/
def initMetrics : PromMetrics :=
  { predictions_total := fun _ _ => 0
    latency_values := fun _ => [] }

/-- The outcome label computed by `record_prediction`:
`"no_show" if prediction == 1 else "show"`. -/
def outcomeOf (prediction : Int) : String :=
  if prediction = 1 then "no_show" else "show"

/-- The buffer update of `record_prediction` (`monitoring.py` lines 85-88):
append `features`, then `pop(0)` when the length exceeds `max_buffer_size`. -/
def recordBuffer (maxSize : Nat) (buf : List FeatureRow) (features : FeatureRow) :
    List FeatureRow :=
  let b := buf ++ [features]
  if maxSize < b.length then b.tail else b

/-- `record_prediction` (`monitoring.py` lines 67-88): increment the
prediction counter for `(model_version, outcome)`, observe `latency` in the
histogram for `model_version`, and append `features` to the bounded buffer. -/
def record_prediction (met : PromMetrics) (m : ModelMonitor) (features : FeatureRow)
    (prediction : Int) (model_version : String) (latency : ℚ) :
    PromMetrics × ModelMonitor :=
  let outcome := outcomeOf prediction
  ({ predictions_total := fun v o =>
       if v = model_version ∧ o = outcome then met.predictions_total v o + 1
       else met.predictions_total v o
     latency_values := fun v =>
       if v = model_version then met.latency_values v ++ [latency]
       else met.latency_values v },
   { m with current_data_buffer :=
       recordBuffer m.max_buffer_size m.current_data_buffer features })

/-! ## Drift scoring (`calculate_drift_simple`, `monitoring.py` lines 90-127) -/

/-- The values of one feature column of `pd.DataFrame(current_data_buffer)`:
the value of `f` in every buffered row that has it (pandas fills the others
with NaN and its `mean` skips them). -/
def columnValues (buf : List FeatureRow) (f : String) : List ℚ :=
  buf.filterMap fun row => (row.find? fun p => p.1 == f).map Prod.snd

/-- Arithmetic mean of a list of rationals (pandas `mean`). -/
def qmean (l : List ℚ) : ℚ := l.sum / l.length

/-- The feature columns of `pd.DataFrame(current_data_buffer)`: every feature
name occurring in some buffered row, without duplicates. -/
def bufferFeatures (buf : List FeatureRow) : List String :=
  ((buf.map fun row => row.map Prod.fst).flatten).dedup

/-- The un-capped drift score of the loop body (`monitoring.py` lines 113-117):
`abs(curr_mean - ref_mean) / ref_std` when `ref_std > 0`, else `0.0`. -/
def rawScore (currMean refMean refStd : ℚ) : ℚ :=
  if 0 < refStd then |currMean - refMean| / refStd else 0

/-- One pass of the feature loop of `calculate_drift_simple`: for every buffer
feature that is also in the reference data, the pair of the capped score put
into `drift_scores` (`min(drift_score, 1.0)`) and the raw score written to the
`DATA_DRIFT_SCORE` gauge (the source sets the gauge to the un-capped value). -/
def driftEntries (m : ModelMonitor) : List (String × ℚ × ℚ) :=
  match m.reference_data with
  | Option.none => []
  | some ref =>
    (bufferFeatures m.current_data_buffer).filterMap fun f =>
      match ref.find? fun p => p.1 == f with
      | Option.none => Option.none
      | some r =>
        let currMean := qmean (columnValues m.current_data_buffer f)
        let score := rawScore currMean r.2.1 r.2.2
        some (f, min score 1, score)

/-- `calculate_drift_simple` (`monitoring.py` lines 90-127): empty result when
the buffer is empty or no reference data is loaded; otherwise the map of
capped per-feature scores. -/
def calculate_drift_simple (m : ModelMonitor) : List (String × ℚ) :=
  if m.current_data_buffer.isEmpty || m.reference_data.isNone then []
  else (driftEntries m).map fun e => (e.1, e.2.1)

/-- The values `calculate_drift_simple` writes to the per-feature
`DATA_DRIFT_SCORE` gauge: the un-capped `drift_score` (`monitoring.py`
line 122). -/
def driftGaugeSets (m : ModelMonitor) : List (String × ℚ) :=
  if m.current_data_buffer.isEmpty || m.reference_data.isNone then []
  else (driftEntries m).map fun e => (e.1, e.2.2)

/-- The `except` clause of `calculate_drift_simple` (`monitoring.py` lines
124-126): an exception after `k` loop iterations is caught and printed, and
the `drift_scores` accumulated so far are returned instead of the error being
surfaced.  `failAfter = none` is the non-failing run. -/
def calculate_drift_caught (m : ModelMonitor) (failAfter : Option Nat) :
    List (String × ℚ) :=
  match failAfter with
  | Option.none => calculate_drift_simple m
  | some k => (calculate_drift_simple m).take k

/-- `generate_drift_report` (`monitoring.py` lines 129-176): each reported
feature with its score and whether it is rendered with the `high-drift` class
(`score > 0.1`). -/
def generate_drift_report (m : ModelMonitor) : List (String × ℚ × Bool) :=
  (calculate_drift_simple m).map fun e => (e.1, e.2, decide ((1 : ℚ)/10 < e.2))

/-! ## Model registry: data model

One MLflow registered model name; its version records.  Stages are the
closed set used by the source scripts. -/

/-- Lifecycle stage of a model version (`"None"`, `"Production"`,
`"Archived"` in the source). -/
inductive Stage
  | none
  | production
  | archived
deriving DecidableEq, Repr

/-- One registered model version: its number, the run that produced it, its
metric snapshot and its current stage. -/
structure ModelVersion where
  version : Nat
  runId : Nat
  metrics : List (String × ℚ)
  stage : Stage
deriving DecidableEq, Repr

/-- The registry state for one model name: all its version records. -/
abbrev RegState := List ModelVersion

/-- One `client.transition_model_version_stage(name, version, stage)` call:
set the stage of the record(s) with that version number. -/
def setStage (s : RegState) (v : Nat) (st : Stage) : RegState :=
  s.map fun m => if m.version = v then { m with stage := st } else m

/-- Number of records currently in stage `Production`. -/
def prodCount (s : RegState) : Nat :=
  s.countP fun m => m.stage == Stage.production

/-- `client.get_latest_versions(name, stages=["Production"])`, reduced to the
version numbers: the versions currently in stage `Production`. -/
def productionVersions (s : RegState) : List Nat :=
  (s.filter fun m => m.stage == Stage.production).map ModelVersion.version

/-- Version numbers are pairwise distinct (MLflow allocates them uniquely;
spec invariant I2). -/
def versionsNodup (s : RegState) : Prop :=
  (s.map ModelVersion.version).Nodup

/-- The archive loop of `reset_to_baseline` (`reset_to_baseline.py` lines
31-38): one transition per current production version, each producing an
externally observable registry state.  Returns the list of states after each
transition, in order. -/
def archiveSteps (s : RegState) : List Nat → List RegState
  | [] => []
  | v :: vs =>
    let s1 := setStage s v Stage.archived
    s1 :: archiveSteps s1 vs

/-- `reset_to_baseline` (`reset_to_baseline.py` lines 31-46): archive every
current production version, then promote version 1, as separate client calls.
The value is the list of externally observable registry states, one per
transition call. -/
def resetToBaselineTrace (s : RegState) : List RegState :=
  let arch := archiveSteps s (productionVersions s)
  let s1 := arch.getLast?.getD s
  arch ++ [setStage s1 1 Stage.production]

/-- Modelled from the spec: `register(name, run_id, metrics)` of the missing
`src/src/model_registry.py` allocates the next version number (max existing
plus one, or 1 if none exist). -/
def nextVersion (s : RegState) : Nat :=
  (s.map ModelVersion.version).foldr max 0 + 1

/-- Modelled from the spec: `register` stores a new record in stage `None`
with the freshly allocated version number. -/
def register (s : RegState) (run_id : Nat) (metrics : List (String × ℚ)) : RegState :=
  s ++ [{ version := nextVersion s, runId := run_id, metrics := metrics,
          stage := Stage.none }]

/-- A registry operation of the scripts: a registration, or the
archive-then-promote sequence of `reset_to_baseline`. -/
inductive RegOp
  | register (run_id : Nat) (metrics : List (String × ℚ))
  | resetToBaseline
deriving DecidableEq, Repr

/-- The externally observable registry states produced by one operation. -/
def opTrace (s : RegState) : RegOp → List RegState
  | RegOp.register run_id metrics => [register s run_id metrics]
  | RegOp.resetToBaseline => resetToBaselineTrace s

/-- All externally observable registry states along a sequence of operations
starting from state `s`. -/
def runOps (s : RegState) : List RegOp → List RegState
  | [] => []
  | op :: ops =>
    let ts := opTrace s op
    ts ++ runOps (ts.getLast?.getD s) ops

/-! ## Promotion policy (`src/src/model_registry.py`, absent from the provided
sources; modelled from the spec) -/

/-- The current `Production` record, if any. -/
def currentProduction (s : RegState) : Option ModelVersion :=
  s.find? fun m => m.stage == Stage.production

/-- Look up one metric value in a metric snapshot. -/
def lookupMetric (metrics : List (String × ℚ)) (name : String) : Option ℚ :=
  (metrics.find? fun p => p.1 == name).map Prod.snd

/-- Modelled from the spec: `Registry.transition_to_production(name, version)`
of the missing `src/src/model_registry.py` — within one transaction the
current `Production` version (if any) is set to `Archived` and the target
version to `Production`; the single resulting state is the only observable
one. -/
def transition_to_production (s : RegState) (v : Nat) : RegState :=
  s.map fun m =>
    if m.version = v then { m with stage := Stage.production }
    else if m.stage = Stage.production then { m with stage := Stage.archived }
    else m

/-- Result of `auto_promote_if_better`: the promoted version number and the
new registry state on a win, the unchanged registry state on a loss, or a
surfaced error. -/
inductive PromoteOutcome
  | promoted (version : Nat) (newState : RegState)
  | notPromoted (state : RegState)
  | promoteError (msg : String)
deriving DecidableEq, Repr

/-- Modelled from the spec: the win condition of the promotion policy —
`higher_is_better ? candidate > production : candidate < production`,
strict inequality. -/
def metricBeats (higher_is_better : Bool) (candVal prodVal : ℚ) : Bool :=
  if higher_is_better then decide (prodVal < candVal) else decide (candVal < prodVal)

/-- Modelled from the spec: `ModelRegistry.auto_promote_if_better(run_id,
metric_name, higher_is_better)` of the missing `src/src/model_registry.py` —
resolve the registered candidate from `run_id`; promote unconditionally when
no production version exists; otherwise promote iff the candidate's metric
strictly beats the production's in the direction of `higher_is_better`
(errors when either side lacks the metric). -/
def auto_promote_if_better (s : RegState) (run_id : Nat) (metric_name : String)
    (higher_is_better : Bool) : PromoteOutcome :=
  match s.find? fun m => m.runId == run_id with
  | Option.none => PromoteOutcome.promoteError "run_id not registered"
  | some cand =>
    match currentProduction s with
    | Option.none =>
      PromoteOutcome.promoted cand.version (transition_to_production s cand.version)
    | some prod =>
      match lookupMetric cand.metrics metric_name,
            lookupMetric prod.metrics metric_name with
      | some cv, some pv =>
        if metricBeats higher_is_better cv pv then
          PromoteOutcome.promoted cand.version (transition_to_production s cand.version)
        else PromoteOutcome.notPromoted s
      | _, _ => PromoteOutcome.promoteError "missing metric"

/-! ## Concrete states used by counterexamples and witnesses -/

/-- A registry with version 1 archived and version 2 in production. -/
def regEx : RegState :=
  [{ version := 1, runId := 11, metrics := [], stage := Stage.archived },
   { version := 2, runId := 22, metrics := [], stage := Stage.production }]

/-- A registry with a production version 1 (auc 7/10) and an unpromoted
candidate version 2 (auc 9/10). -/
def regW : RegState :=
  [{ version := 1, runId := 11, metrics := [("auc", 7/10)], stage := Stage.production },
   { version := 2, runId := 22, metrics := [("auc", 9/10)], stage := Stage.none }]

/-- A monitor whose single buffered row matches the reference mean of `age`. -/
def driftMonA : ModelMonitor :=
  { reference_data := some [("age", 40, 10)]
    current_data_buffer := [[("age", 40)]]
    max_buffer_size := 1000 }

/-- A monitor whose buffered `age` mean sits two reference standard
deviations above the reference mean. -/
def driftMonB : ModelMonitor :=
  { reference_data := some [("age", 40, 10)]
    current_data_buffer := [[("age", 60)]]
    max_buffer_size := 1000 }

/-! ## Helper lemmas about the drift monitor -/

lemma recordBuffer_length_le (buf : List FeatureRow) (x : FeatureRow)
    (h : buf.length ≤ 1000) : (recordBuffer 1000 buf x).length ≤ 1000 := by
  unfold recordBuffer
  by_cases hl : 1000 < (buf ++ [x]).length
  · simp only [hl, if_true]
    rw [List.length_tail]
    simp only [List.length_append, List.length_singleton]
    omega
  · simp only [hl, if_false]
    simp only [List.length_append, List.length_singleton] at hl ⊢
    omega

lemma sum_const_list (l : List ℚ) (c : ℚ) (hc : ∀ v ∈ l, v = c) :
    l.sum = l.length * c := by
  induction l with
  | nil => simp
  | cons a t ih =>
    have ha : a = c := hc a (List.mem_cons_self a t)
    have ht : ∀ v ∈ t, v = c := fun v hv => hc v (List.mem_cons_of_mem a hv)
    simp only [List.sum_cons, List.length_cons, ih ht, ha]
    push_cast
    ring

lemma qmean_const (l : List ℚ) (c : ℚ) (h0 : l ≠ []) (hc : ∀ v ∈ l, v = c) :
    qmean l = c := by
  have hn : (l.length : ℚ) ≠ 0 :=
    Nat.cast_ne_zero.mpr fun h => h0 (List.length_eq_zero.mp h)
  unfold qmean
  rw [sum_const_list l c hc, mul_comm, mul_div_cancel_right₀ _ hn]

lemma find?_filterMap_keyed {β : Type} (g : String → Option (String × β))
    (hg : ∀ x y, g x = some y → y.1 = x) :
    ∀ (l : List String), l.Nodup → ∀ f ∈ l,
      (l.filterMap g).find? (fun e => e.1 == f) = g f := by
  intro l
  induction l with
  | nil => simp
  | cons a t ih =>
    intro hnd f hf
    rcases List.nodup_cons.1 hnd with ⟨hat, hndt⟩
    have hnone : ∀ (f' : String), f' ∉ t →
        (t.filterMap g).find? (fun e => e.1 == f') = Option.none := by
      intro f' hf'
      apply List.find?_eq_none.2
      intro e he
      rcases List.mem_filterMap.1 he with ⟨x, hx, hgx⟩
      have hex : e.1 = x := hg x e hgx
      simp only [hex, beq_iff_eq]
      intro hxe
      exact hf' (hxe ▸ hx)
    rcases List.mem_cons.1 hf with rfl | hft
    · cases hga : g f with
      | none =>
        rw [List.filterMap_cons_none hga, hnone f hat]
      | some y =>
        have h1 : y.1 = f := hg _ _ hga
        rw [List.filterMap_cons_some hga]
        rw [List.find?_cons_of_pos]
        simp [h1]
    · have haf : a ≠ f := fun h => hat (h ▸ hft)
      cases hga : g a with
      | none =>
        rw [List.filterMap_cons_none hga]
        exact ih hndt f hft
      | some y =>
        have h1 : y.1 = a := hg _ _ hga
        rw [List.filterMap_cons_some hga, List.find?_cons_of_neg]
        · exact ih hndt f hft
        · simp [h1, haf]

lemma columnValues_ne_nil {buf : List FeatureRow} {f : String}
    (hf : f ∈ bufferFeatures buf) : columnValues buf f ≠ [] := by
  rw [bufferFeatures, List.mem_dedup] at hf
  rcases List.mem_flatten.1 hf with ⟨keys, hkeys, hfk⟩
  rcases List.mem_map.1 hkeys with ⟨row, hrow, rfl⟩
  rcases List.mem_map.1 hfk with ⟨p, hp, hpf⟩
  have hsome : (row.find? fun q => q.1 == f).isSome := by
    rw [List.find?_isSome]
    exact ⟨p, hp, by simp [hpf]⟩
  rcases Option.isSome_iff_exists.1 hsome with ⟨q, hq⟩
  have : q.2 ∈ columnValues buf f :=
    List.mem_filterMap.2 ⟨row, hrow, by rw [hq]; rfl⟩
  exact List.ne_nil_of_mem this

lemma buffer_ne_nil_of_mem_features {buf : List FeatureRow} {f : String}
    (hf : f ∈ bufferFeatures buf) : buf ≠ [] := by
  intro h
  rw [h] at hf
  simp [bufferFeatures, List.dedup] at hf

lemma rawScore_nonneg (cm rm rs : ℚ) : 0 ≤ rawScore cm rm rs := by
  unfold rawScore
  by_cases h : 0 < rs
  · rw [if_pos h]
    exact div_nonneg (abs_nonneg _) (le_of_lt h)
  · rw [if_neg h]

lemma calculate_drift_find (m : ModelMonitor) (ref : RefData) (f : String)
    (r : String × ℚ × ℚ)
    (href : m.reference_data = some ref)
    (hf : f ∈ bufferFeatures m.current_data_buffer)
    (hfind : ref.find? (fun p => p.1 == f) = some r) :
    (calculate_drift_simple m).find? (fun e => e.1 == f)
      = some (f, min (rawScore (qmean (columnValues m.current_data_buffer f))
                        r.2.1 r.2.2) 1)
    ∧ (driftGaugeSets m).find? (fun e => e.1 == f)
      = some (f, rawScore (qmean (columnValues m.current_data_buffer f))
                   r.2.1 r.2.2) := by
  have hbuf : m.current_data_buffer.isEmpty = false := by
    have hne := buffer_ne_nil_of_mem_features hf
    cases hb : m.current_data_buffer with
    | nil => exact absurd hb hne
    | cons a t => rfl
  have hnone : m.reference_data.isNone = false := by
    rw [href]; rfl
  have hentry : (driftEntries m).find? (fun e => e.1 == f)
      = some (f, min (rawScore (qmean (columnValues m.current_data_buffer f))
                        r.2.1 r.2.2) 1,
              rawScore (qmean (columnValues m.current_data_buffer f)) r.2.1 r.2.2) := by
    unfold driftEntries
    rw [href]
    have hkey : ∀ (x : String) (y : String × ℚ × ℚ),
        (match ref.find? fun p => p.1 == x with
         | Option.none => Option.none
         | some r' =>
           some (x, min (rawScore (qmean (columnValues m.current_data_buffer x))
                           r'.2.1 r'.2.2) 1,
                 rawScore (qmean (columnValues m.current_data_buffer x)) r'.2.1 r'.2.2))
          = some y → y.1 = x := by
      intro x y hy
      cases hx : ref.find? fun p => p.1 == x with
      | none => rw [hx] at hy; exact absurd hy (by simp)
      | some r' =>
        rw [hx] at hy
        have := Option.some.inj hy
        rw [← this]
    have := find?_filterMap_keyed _ hkey (bufferFeatures m.current_data_buffer)
      (List.nodup_dedup _) f hf
    rw [this, hfind]
  constructor
  · unfold calculate_drift_simple
    rw [hbuf, hnone]
    simp only [Bool.or_false, Bool.false_eq_true, if_false]
    rw [List.find?_map]
    show ((driftEntries m).find? fun e => e.1 == f).map (fun e => (e.1, e.2.1)) = _
    rw [hentry]
    rfl
  · unfold driftGaugeSets
    rw [hbuf, hnone]
    simp only [Bool.or_false, Bool.false_eq_true, if_false]
    rw [List.find?_map]
    show ((driftEntries m).find? fun e => e.1 == f).map (fun e => (e.1, e.2.2)) = _
    rw [hentry]
    rfl

lemma driftEntries_shape (m : ModelMonitor) (x : String × ℚ × ℚ)
    (hx : x ∈ driftEntries m) :
    ∃ cm rm rs, x.2.1 = min (rawScore cm rm rs) 1 ∧ x.2.2 = rawScore cm rm rs := by
  unfold driftEntries at hx
  cases href : m.reference_data with
  | none => rw [href] at hx; simp at hx
  | some ref =>
    rw [href] at hx
    rcases List.mem_filterMap.1 hx with ⟨f, hfm, hgf⟩
    cases hfind : ref.find? fun p => p.1 == f with
    | none => rw [hfind] at hgf; exact absurd hgf (by simp)
    | some r =>
      rw [hfind] at hgf
      have hx2 := Option.some.inj hgf
      refine ⟨qmean (columnValues m.current_data_buffer f), r.2.1, r.2.2, ?_, ?_⟩
      · rw [← hx2]
      · rw [← hx2]

/-! ## The claims -/

/-- C3: for every feature `f` present both in the buffer and in the reference
data, `calculate_drift_simple` returns `min(|mean(buffer[f]) - ref.mean| /
ref.std, 1.0)` when `ref.std > 0` and `0` when `ref.std` is not positive; if
every buffered value of `f` equals the reference mean the returned score is
`0`, and a buffered mean two reference standard deviations away yields the
clamped score `1`. -/
theorem C3_drift_formula (m : ModelMonitor) (ref : RefData) (f : String) (rm rs : ℚ)
    (href : m.reference_data = some ref)
    (hf : f ∈ bufferFeatures m.current_data_buffer)
    (hfind : ref.find? (fun p => p.1 == f) = some (f, rm, rs)) :
    (0 < rs →
      (calculate_drift_simple m).find? (fun e => e.1 == f)
        = some (f, min (|qmean (columnValues m.current_data_buffer f) - rm| / rs) 1)) ∧
    (¬ 0 < rs →
      (calculate_drift_simple m).find? (fun e => e.1 == f) = some (f, 0)) ∧
    ((∀ v ∈ columnValues m.current_data_buffer f, v = rm) →
      (calculate_drift_simple m).find? (fun e => e.1 == f) = some (f, 0)) ∧
    (0 < rs → |qmean (columnValues m.current_data_buffer f) - rm| = 2 * rs →
      (calculate_drift_simple m).find? (fun e => e.1 == f) = some (f, 1)) := by
  have hmain := (calculate_drift_find m ref f (f, rm, rs) href hf hfind).1
  refine ⟨?_, ?_, ?_, ?_⟩
  · intro hrs
    rw [hmain, rawScore, if_pos hrs]
  · intro hrs
    rw [hmain, rawScore, if_neg hrs]
    norm_num
  · intro hconst
    have hmean : qmean (columnValues m.current_data_buffer f) = rm :=
      qmean_const _ rm (columnValues_ne_nil hf) hconst
    rw [hmain, rawScore, hmean]
    by_cases hrs : 0 < rs
    · rw [if_pos hrs]
      norm_num
    · rw [if_neg hrs]
      norm_num
  · intro hrs htwo
    have hne : rs ≠ 0 := ne_of_gt hrs
    have h2 : (2 : ℚ) * rs / rs = 2 := by
      field_simp
    rw [hmain]
    show some (f, min (rawScore (qmean (columnValues m.current_data_buffer f)) rm rs) 1)
        = some (f, 1)
    rw [rawScore, if_pos hrs, htwo, h2]
    norm_num

/-- Witness for C3: a one-row buffer whose `age` value equals the reference
mean yields drift score `0`. -/
theorem C3_witness :
    (calculate_drift_simple driftMonA).find? (fun e => e.1 == "age")
      = some ("age", 0) :=
  (C3_drift_formula driftMonA [("age", 40, 10)] "age" 40 10 rfl (by decide) rfl).2.2.1
    (by
      intro v hv
      simp [driftMonA, columnValues, List.filterMap, List.find?] at hv
      norm_num [hv])

/-- C4: the drift buffer is a fixed-capacity FIFO of at most 1000 entries:
after any sequence of `record_prediction` calls starting from a fresh monitor
the buffer length is at most 1000; each call appends the new feature vector
at the tail; and a call on a full buffer evicts exactly the single oldest
entry. -/
theorem C4_buffer_fifo :
    (∀ (readResult : Except String RefData)
       (inputs : List (FeatureRow × Int × String × ℚ)),
      ((inputs.foldl
          (fun st i => record_prediction st.1 st.2 i.1 i.2.1 i.2.2.1 i.2.2.2)
          (initMetrics, initMonitor readResult)).2.current_data_buffer).length
        ≤ 1000) ∧
    (∀ (met : PromMetrics) (m : ModelMonitor) (features : FeatureRow)
       (p : Int) (v : String) (lat : ℚ),
      (record_prediction met m features p v lat).2.current_data_buffer
        = recordBuffer m.max_buffer_size m.current_data_buffer features) ∧
    (∀ (buf : List FeatureRow) (x : FeatureRow), buf.length < 1000 →
      recordBuffer 1000 buf x = buf ++ [x]) ∧
    (∀ (buf : List FeatureRow) (x : FeatureRow), buf.length = 1000 →
      recordBuffer 1000 buf x = buf.tail ++ [x]) := by
  refine ⟨?_, ?_, ?_, ?_⟩
  · intro readResult inputs
    suffices h : ∀ (inputs : List (FeatureRow × Int × String × ℚ))
        (st : PromMetrics × ModelMonitor),
        st.2.current_data_buffer.length ≤ 1000 → st.2.max_buffer_size = 1000 →
        ((inputs.foldl
            (fun st i => record_prediction st.1 st.2 i.1 i.2.1 i.2.2.1 i.2.2.2)
            st).2.current_data_buffer).length ≤ 1000 by
      exact h inputs (initMetrics, initMonitor readResult) (by simp [initMonitor]) rfl
    intro inputs
    induction inputs with
    | nil => intro st h1 _; exact h1
    | cons i rest ih =>
      intro st h1 h2
      rw [List.foldl_cons]
      apply ih
      · show (recordBuffer st.2.max_buffer_size st.2.current_data_buffer i.1).length ≤ 1000
        rw [h2]
        exact recordBuffer_length_le _ _ h1
      · exact h2
  · intro met m features p v lat
    rfl
  · intro buf x h
    unfold recordBuffer
    rw [if_neg]
    simp only [List.length_append, List.length_singleton]
    omega
  · intro buf x h
    have hne : buf ≠ [] := by
      intro hnil
      rw [hnil] at h
      simp at h
    unfold recordBuffer
    rw [if_pos]
    · exact List.tail_append_of_ne_nil hne
    · simp only [List.length_append, List.length_singleton]
      omega

/-- Witness for C4: recording on a one-element buffer below capacity appends
at the tail. -/
theorem C4_witness :
    recordBuffer 1000 [[("age", 40)]] [("age", 60)]
      = [[("age", 40)], [("age", 60)]] :=
  C4_buffer_fifo.2.2.1 [[("age", 40)]] [("age", 60)] (by norm_num)

/-- C5: `calculate_drift_simple` returns the empty map — a normal result, not
an error — whenever the buffer is empty or no reference data was loaded. -/
theorem C5_empty_soft (m : ModelMonitor)
    (h : m.current_data_buffer = [] ∨ m.reference_data = Option.none) :
    calculate_drift_simple m = [] := by
  unfold calculate_drift_simple
  rcases h with h | h
  · rw [h]
    rfl
  · rw [h]
    simp

/-- Witness for C5: a freshly initialised monitor (empty buffer) yields the
empty drift map. -/
theorem C5_witness :
    calculate_drift_simple (initMonitor (Except.ok [("age", 40, 10)])) = [] :=
  C5_empty_soft (initMonitor (Except.ok [("age", 40, 10)])) (Or.inl rfl)

lemma driftMonA_scores : calculate_drift_simple driftMonA = [("age", 0)] := by
  norm_num [calculate_drift_simple, driftMonA, driftEntries, bufferFeatures,
    columnValues, qmean, rawScore, List.dedup, List.find?, List.filterMap]

lemma driftMonB_scores : calculate_drift_simple driftMonB = [("age", 1)] := by
  norm_num [calculate_drift_simple, driftMonB, driftEntries, bufferFeatures,
    columnValues, qmean, rawScore, List.dedup, List.find?, List.filterMap]

lemma driftMonB_gauges : driftGaugeSets driftMonB = [("age", 2)] := by
  norm_num [driftGaugeSets, driftMonB, driftEntries, bufferFeatures,
    columnValues, qmean, rawScore, List.dedup, List.find?, List.filterMap]

/-- C6 counterexample: the per-feature gauge is set to the un-capped score;
with reference `(mean, std) = (40, 10)` and a buffered mean of 60 the gauge
value is 2, outside `[0, 1]`. -/
theorem C6_counterexample :
    ("age", (2 : ℚ)) ∈ driftGaugeSets driftMonB ∧ ¬ ((2 : ℚ) ≤ 1) := by
  constructor
  · rw [driftMonB_gauges]
    exact List.mem_singleton.2 rfl
  · norm_num

/-- C6 amended: every value in the mapping returned by
`calculate_drift_simple` lies in `[0, 1]`; each value set on the per-feature
drift gauge is the un-capped score, which is nonnegative but not clamped
to 1. -/
theorem C6_scores_amended (m : ModelMonitor) :
    (∀ e ∈ calculate_drift_simple m, 0 ≤ e.2 ∧ e.2 ≤ 1) ∧
    (∀ e ∈ driftGaugeSets m, 0 ≤ e.2) := by
  constructor
  · intro e he
    unfold calculate_drift_simple at he
    by_cases hc : (m.current_data_buffer.isEmpty || m.reference_data.isNone) = true
    · rw [if_pos hc] at he
      simp at he
    · rw [if_neg hc] at he
      rcases List.mem_map.1 he with ⟨x, hx, rfl⟩
      rcases driftEntries_shape m x hx with ⟨cm, rm, rs, h1, _⟩
      constructor
      · show 0 ≤ x.2.1
        rw [h1]
        exact le_min (rawScore_nonneg cm rm rs) zero_le_one
      · show x.2.1 ≤ 1
        rw [h1]
        exact min_le_right _ _
  · intro e he
    unfold driftGaugeSets at he
    by_cases hc : (m.current_data_buffer.isEmpty || m.reference_data.isNone) = true
    · rw [if_pos hc] at he
      simp at he
    · rw [if_neg hc] at he
      rcases List.mem_map.1 he with ⟨x, hx, rfl⟩
      rcases driftEntries_shape m x hx with ⟨cm, rm, rs, _, h2⟩
      show 0 ≤ x.2.2
      rw [h2]
      exact rawScore_nonneg cm rm rs

/-- Witness for the amended C6 at a concrete monitor and map entry. -/
theorem C6_witness : 0 ≤ (1 : ℚ) ∧ (1 : ℚ) ≤ 1 :=
  (C6_scores_amended driftMonB).1 ("age", 1)
    (by rw [driftMonB_scores]; exact List.mem_singleton.2 rfl)

/-- C7 counterexample: a failing reference load is silently swallowed — the
monitor keeps `reference_data = None`, and drift computation over a non-empty
buffer then returns the empty map instead of surfacing the load failure. -/
theorem C7_counterexample :
    (initMonitor (Except.error "read_csv failed")).reference_data = Option.none ∧
    calculate_drift_simple
      { reference_data := Option.none
        current_data_buffer := [[("age", 60)]]
        max_buffer_size := 1000 } = [] ∧
    ([[("age", 60)]] : List FeatureRow) ≠ [] := by
  refine ⟨rfl, rfl, by simp⟩

/-- C7 amended: failures in the monitor are silently swallowed, not surfaced:
a reference-load failure leaves `reference_data = None` (after which drift
computation returns the empty map), and an exception during drift computation
is caught, returning the partial scores accumulated before the failure. -/
theorem C7_swallowed_amended (e : String) (m : ModelMonitor) (k : Nat) :
    load_reference_data (Except.error e) = Option.none ∧
    (m.reference_data = Option.none → calculate_drift_simple m = []) ∧
    calculate_drift_caught m (some k) = (calculate_drift_simple m).take k := by
  refine ⟨rfl, ?_, rfl⟩
  intro h
  unfold calculate_drift_simple
  rw [h]
  simp

/-- Witness for the amended C7 at a concrete failing load. -/
theorem C7_witness :
    calculate_drift_simple
      { reference_data := Option.none
        current_data_buffer := [[("age", 60)]]
        max_buffer_size := 1000 } = [] :=
  (C7_swallowed_amended "io error"
    { reference_data := Option.none
      current_data_buffer := [[("age", 60)]]
      max_buffer_size := 1000 } 0).2.1 rfl

/-- C8: with a fixed reference `(mean, std)` and positive std, the reported
drift score is monotonically non-decreasing in the distance between the
buffered mean and the reference mean. -/
theorem C8_drift_monotone (m1 m2 : ModelMonitor) (ref : RefData) (f : String)
    (rm rs : ℚ)
    (h1 : m1.reference_data = some ref) (h2 : m2.reference_data = some ref)
    (hf1 : f ∈ bufferFeatures m1.current_data_buffer)
    (hf2 : f ∈ bufferFeatures m2.current_data_buffer)
    (hfind : ref.find? (fun p => p.1 == f) = some (f, rm, rs))
    (hrs : 0 < rs)
    (hdist : |qmean (columnValues m1.current_data_buffer f) - rm|
               ≤ |qmean (columnValues m2.current_data_buffer f) - rm|) :
    ∀ s1 s2,
      (calculate_drift_simple m1).find? (fun e => e.1 == f) = some (f, s1) →
      (calculate_drift_simple m2).find? (fun e => e.1 == f) = some (f, s2) →
      s1 ≤ s2 := by
  intro s1 s2 hs1 hs2
  have e1 := (calculate_drift_find m1 ref f (f, rm, rs) h1 hf1 hfind).1
  have e2 := (calculate_drift_find m2 ref f (f, rm, rs) h2 hf2 hfind).1
  rw [e1] at hs1
  rw [e2] at hs2
  simp only [Option.some.injEq, Prod.mk.injEq] at hs1 hs2
  rw [← hs1.2, ← hs2.2]
  show min (rawScore (qmean (columnValues m1.current_data_buffer f)) rm rs) 1
      ≤ min (rawScore (qmean (columnValues m2.current_data_buffer f)) rm rs) 1
  apply min_le_min _ (le_refl 1)
  rw [rawScore, if_pos hrs, rawScore, if_pos hrs]
  exact (div_le_div_iff_of_pos_right hrs).2 hdist

/-- Witness for C8: a buffered mean at the reference mean scores no more than
a buffered mean two standard deviations away. -/
theorem C8_witness : (0 : ℚ) ≤ 1 :=
  C8_drift_monotone driftMonA driftMonB [("age", 40, 10)] "age" 40 10 rfl rfl
    (by decide) (by decide) rfl (by norm_num)
    (by norm_num [driftMonA, driftMonB, columnValues, qmean, List.filterMap,
      List.find?])
    0 1
    (by rw [driftMonA_scores]; rfl)
    (by rw [driftMonB_scores]; rfl)

/-- C9: a feature is flagged high-drift in the generated report iff its drift
score strictly exceeds the threshold `0.1`; a score at or below the threshold
is marked as not drifting. -/
theorem C9_threshold (m : ModelMonitor) (e : String × ℚ × Bool)
    (he : e ∈ generate_drift_report m) :
    (e.2.2 = true ↔ (1 : ℚ)/10 < e.2.1) ∧ (e.2.1 ≤ 1/10 → e.2.2 = false) := by
  rcases List.mem_map.1 he with ⟨x, hx, rfl⟩
  constructor
  · show decide ((1 : ℚ)/10 < x.2) = true ↔ (1 : ℚ)/10 < x.2
    simp
  · intro h
    show decide ((1 : ℚ)/10 < x.2) = false
    rw [decide_eq_false_iff_not]
    exact not_lt.2 h

lemma driftMonB_report : generate_drift_report driftMonB = [("age", 1, true)] := by
  unfold generate_drift_report
  rw [driftMonB_scores]
  norm_num

/-- Witness for C9 at a concrete reported feature. -/
theorem C9_witness : ((true : Bool) = true ↔ (1 : ℚ)/10 < 1) :=
  (C9_threshold driftMonB ("age", 1, true)
    (by rw [driftMonB_report]; exact List.mem_singleton.2 rfl)).1

/-- C10: `record_prediction` increments exactly the one prediction counter
labelled with the given model version and the outcome (`"no_show"` iff the
prediction equals 1, `"show"` otherwise), and appends exactly one latency
observation to the histogram labelled with that version. -/
theorem C10_record_metrics (met : PromMetrics) (m : ModelMonitor)
    (features : FeatureRow) (p : Int) (mv : String) (lat : ℚ) :
    ((record_prediction met m features p mv lat).1.predictions_total mv (outcomeOf p)
      = met.predictions_total mv (outcomeOf p) + 1) ∧
    (∀ v o, ¬(v = mv ∧ o = outcomeOf p) →
      (record_prediction met m features p mv lat).1.predictions_total v o
        = met.predictions_total v o) ∧
    (outcomeOf p = "no_show" ↔ p = 1) ∧
    ((record_prediction met m features p mv lat).1.latency_values mv
      = met.latency_values mv ++ [lat]) ∧
    (∀ v, v ≠ mv →
      (record_prediction met m features p mv lat).1.latency_values v
        = met.latency_values v) := by
  refine ⟨?_, ?_, ?_, ?_, ?_⟩
  · show (if mv = mv ∧ outcomeOf p = outcomeOf p then
        met.predictions_total mv (outcomeOf p) + 1
      else met.predictions_total mv (outcomeOf p)) = _
    rw [if_pos ⟨rfl, rfl⟩]
  · intro v o h
    show (if v = mv ∧ o = outcomeOf p then met.predictions_total v o + 1
      else met.predictions_total v o) = _
    rw [if_neg h]
  · by_cases hp : p = 1
    · simp [outcomeOf, hp]
    · constructor
      · intro h
        rw [outcomeOf, if_neg hp] at h
        exact absurd h (by decide)
      · intro h
        exact absurd h hp
  · show (if mv = mv then met.latency_values mv ++ [lat]
      else met.latency_values mv) = _
    rw [if_pos rfl]
  · intro v h
    show (if v = mv then met.latency_values v ++ [lat]
      else met.latency_values v) = _
    rw [if_neg h]

/-- Witness for C10: a counter with a different label is untouched. -/
theorem C10_witness :
    (record_prediction initMetrics (initMonitor (Except.ok [("age", 40, 10)]))
        [("age", 40)] 1 "v1" 1).1.predictions_total "v2" "show"
      = initMetrics.predictions_total "v2" "show" :=
  (C10_record_metrics initMetrics (initMonitor (Except.ok [("age", 40, 10)]))
      [("age", 40)] 1 "v1" 1).2.1 "v2" "show" (by decide)

/-! ## Helper lemmas about the registry -/

lemma setStage_map_version (s : RegState) (v : Nat) (st : Stage) :
    (setStage s v st).map ModelVersion.version = s.map ModelVersion.version := by
  unfold setStage
  rw [List.map_map]
  apply List.map_congr_left
  intro m _
  by_cases h : m.version = v <;> simp [h]

lemma versionsNodup_setStage {s : RegState} (hnd : versionsNodup s)
    (v : Nat) (st : Stage) : versionsNodup (setStage s v st) := by
  unfold versionsNodup
  rw [setStage_map_version]
  exact hnd

lemma prodCount_setStage_archived (s : RegState) (v : Nat) :
    prodCount (setStage s v Stage.archived)
      = s.countP fun m => !(m.version == v) && (m.stage == Stage.production) := by
  unfold prodCount setStage
  rw [List.countP_map]
  apply List.countP_congr
  intro m _
  by_cases h : m.version = v <;> simp [h, Function.comp]

lemma prodCount_setStage_production (s : RegState) (v : Nat) :
    prodCount (setStage s v Stage.production)
      = s.countP fun m => (m.version == v) || (m.stage == Stage.production) := by
  unfold prodCount setStage
  rw [List.countP_map]
  apply List.countP_congr
  intro m _
  by_cases h : m.version = v <;> simp [h, Function.comp]

lemma countP_version_le_one {s : RegState} (hnd : versionsNodup s) (v : Nat) :
    (s.countP fun m => m.version == v) ≤ 1 := by
  have h1 : (s.countP fun m => m.version == v)
      = List.count v (s.map ModelVersion.version) := by
    rw [List.count, List.countP_map]
    rfl
  rw [h1]
  exact List.nodup_iff_count_le_one.1 hnd v

lemma prodCount_promote_le_one {s : RegState} (hnd : versionsNodup s)
    (hnone : ∀ m ∈ s, m.stage ≠ Stage.production) (v : Nat) :
    prodCount (setStage s v Stage.production) ≤ 1 := by
  rw [prodCount_setStage_production]
  have heq : (s.countP fun m => (m.version == v) || (m.stage == Stage.production))
      = s.countP fun m => m.version == v := by
    apply List.countP_congr
    intro m hm
    have := hnone m hm
    simp [this]
  rw [heq]
  exact countP_version_le_one hnd v

lemma prodCount_cases {s : RegState} (h : prodCount s ≤ 1) :
    (productionVersions s = [] ∧ ∀ m ∈ s, m.stage ≠ Stage.production) ∨
    (∃ m0, productionVersions s = [m0.version] ∧ m0 ∈ s ∧
       m0.stage = Stage.production ∧
       ∀ m ∈ s, m.stage = Stage.production → m = m0) := by
  have hlen : (productionVersions s).length = prodCount s := by
    unfold productionVersions prodCount
    rw [List.length_map, List.countP_eq_length_filter]
  rcases Nat.le_one_iff_eq_zero_or_eq_one.1 h with h0 | h1
  · left
    have hzero := List.countP_eq_zero.1 h0
    constructor
    · unfold productionVersions
      rw [List.filter_eq_nil_iff.2 hzero]
      rfl
    · intro m hm hp
      exact hzero m hm (by simp [hp])
  · right
    have hfl : (s.filter fun m => m.stage == Stage.production).length = 1 := by
      rw [← List.countP_eq_length_filter]
      exact h1
    rcases List.length_eq_one.1 hfl with ⟨m0, hm0⟩
    have hmem : m0 ∈ s.filter fun m => m.stage == Stage.production := by
      rw [hm0]
      exact List.mem_singleton.2 rfl
    rcases List.mem_filter.1 hmem with ⟨hm0s, hm0p⟩
    refine ⟨m0, ?_, hm0s, by simpa using hm0p, ?_⟩
    · unfold productionVersions
      rw [hm0]
      rfl
    · intro m hm hp
      have : m ∈ s.filter fun m => m.stage == Stage.production :=
        List.mem_filter.2 ⟨hm, by simp [hp]⟩
      rw [hm0] at this
      exact List.mem_singleton.1 this

lemma version_inj {s : RegState} (hnd : versionsNodup s) {m m' : ModelVersion}
    (hm : m ∈ s) (hm' : m' ∈ s) (hv : m.version = m'.version) : m = m' :=
  List.inj_on_of_nodup_map hnd hm hm' hv

lemma reset_trace_spec (s : RegState) (hnd : versionsNodup s)
    (h1 : prodCount s ≤ 1) :
    (∀ t ∈ resetToBaselineTrace s, prodCount t ≤ 1 ∧ versionsNodup t) ∧
    (resetToBaselineTrace s).getLast?.getD s = transition_to_production s 1 ∧
    (∀ m ∈ s, m.stage = Stage.production →
       ∃ t ∈ resetToBaselineTrace s, prodCount t = 0) := by
  rcases prodCount_cases h1 with ⟨hpv, hnone⟩ | ⟨m0, hpv, hm0s, hm0p, huniq⟩
  · have htrace : resetToBaselineTrace s = [setStage s 1 Stage.production] := by
      unfold resetToBaselineTrace
      rw [hpv]
      rfl
    refine ⟨?_, ?_, ?_⟩
    · intro t ht
      rw [htrace] at ht
      rcases List.mem_singleton.1 ht with rfl
      exact ⟨prodCount_promote_le_one hnd hnone 1, versionsNodup_setStage hnd 1 _⟩
    · rw [htrace]
      show setStage s 1 Stage.production = transition_to_production s 1
      unfold setStage transition_to_production
      apply List.map_congr_left
      intro m hm
      by_cases hv : m.version = 1
      · simp [hv]
      · have hp := hnone m hm
        simp [hv, hp]
    · intro m hm hp
      exact absurd hp (hnone m hm)
  · have harch : archiveSteps s (productionVersions s)
        = [setStage s m0.version Stage.archived] := by
      rw [hpv]
      rfl
    have htrace : resetToBaselineTrace s
        = [setStage s m0.version Stage.archived,
           setStage (setStage s m0.version Stage.archived) 1 Stage.production] := by
      unfold resetToBaselineTrace
      rw [harch]
      rfl
    have hs1count : prodCount (setStage s m0.version Stage.archived) = 0 := by
      rw [prodCount_setStage_archived]
      apply List.countP_eq_zero.2
      intro m hm
      by_cases hp : m.stage = Stage.production
      · have hmm0 : m = m0 := huniq m hm hp
        simp [hmm0]
      · simp [hp]
    have hs1nodup : versionsNodup (setStage s m0.version Stage.archived) :=
      versionsNodup_setStage hnd _ _
    have hs1none : ∀ m ∈ setStage s m0.version Stage.archived,
        m.stage ≠ Stage.production := by
      intro m hm
      have := List.countP_eq_zero.1 hs1count m hm
      simpa using this
    refine ⟨?_, ?_, ?_⟩
    · intro t ht
      rw [htrace] at ht
      rcases List.mem_cons.1 ht with rfl | ht2
      · exact ⟨by rw [hs1count]; norm_num, hs1nodup⟩
      · rcases List.mem_singleton.1 ht2 with rfl
        exact ⟨prodCount_promote_le_one hs1nodup hs1none 1,
               versionsNodup_setStage hs1nodup 1 _⟩
    · rw [htrace]
      show setStage (setStage s m0.version Stage.archived) 1 Stage.production
          = transition_to_production s 1
      unfold setStage transition_to_production
      rw [List.map_map]
      apply List.map_congr_left
      intro m hm
      by_cases hv1 : m.version = 1
      · by_cases hv0 : m.version = m0.version
        · have h01 : m0.version = 1 := by rw [← hv0]; exact hv1
          simp [Function.comp, hv0, hv1, h01]
        · have hv0' : ¬ (1 = m0.version) := fun h => hv0 (hv1.trans h)
          simp [Function.comp, hv0, hv1, hv0']
      · by_cases hp : m.stage = Stage.production
        · have hmm0 : m = m0 := huniq m hm hp
          subst hmm0
          simp [Function.comp, hv1, hp]
        · have hv0 : m.version ≠ m0.version := by
            intro h
            exact hp (by rw [version_inj hnd hm hm0s h]; exact hm0p)
          simp [Function.comp, hv0, hv1, hp]
    · intro m hm hp
      refine ⟨setStage s m0.version Stage.archived, ?_, hs1count⟩
      rw [htrace]
      exact List.mem_cons_self _ _

lemma register_prodCount (s : RegState) (run_id : Nat)
    (metrics : List (String × ℚ)) :
    prodCount (register s run_id metrics) = prodCount s := by
  unfold register prodCount
  rw [List.countP_append]
  simp

lemma le_foldr_max (l : List Nat) : ∀ x ∈ l, x ≤ l.foldr max 0 := by
  induction l with
  | nil => simp
  | cons a t ih =>
    intro x hx
    rcases List.mem_cons.1 hx with rfl | hx
    · exact le_max_left _ _
    · exact le_trans (ih x hx) (le_max_right _ _)

lemma register_nodup {s : RegState} (hnd : versionsNodup s) (run_id : Nat)
    (metrics : List (String × ℚ)) :
    versionsNodup (register s run_id metrics) := by
  unfold versionsNodup register
  rw [List.map_append, List.nodup_append]
  refine ⟨hnd, List.nodup_singleton _, ?_⟩
  intro x hx hy
  have h1 : x ≤ (s.map ModelVersion.version).foldr max 0 :=
    le_foldr_max _ x hx
  have h2 : x = nextVersion s := by
    simpa using hy
  rw [h2, nextVersion] at h1
  omega

lemma opTrace_ne_nil (s : RegState) (op : RegOp) : opTrace s op ≠ [] := by
  cases op with
  | register run_id metrics => simp [opTrace]
  | resetToBaseline =>
    unfold opTrace resetToBaselineTrace
    intro h
    exact absurd (List.append_ne_nil_of_right_ne_nil _ (by simp)) (fun h2 => h2 h)

lemma getLastD_mem {α : Type} (l : List α) (d : α) (h : l ≠ []) :
    l.getLast?.getD d ∈ l := by
  cases hl : l.getLast? with
  | none => exact absurd (List.getLast?_isSome.2 h) (by rw [hl]; simp)
  | some a =>
    simp only [hl, Option.getD_some]
    exact List.mem_of_getLast?_eq_some hl

lemma runOps_inv (ops : List RegOp) : ∀ (s : RegState), versionsNodup s →
    prodCount s ≤ 1 → ∀ t ∈ runOps s ops, prodCount t ≤ 1 ∧ versionsNodup t := by
  induction ops with
  | nil =>
    intro s _ _ t ht
    simp [runOps] at ht
  | cons op ops ih =>
    intro s hnd h1 t ht
    have hop : ∀ t ∈ opTrace s op, prodCount t ≤ 1 ∧ versionsNodup t := by
      cases op with
      | register run_id metrics =>
        intro t ht
        rcases List.mem_singleton.1 ht with rfl
        rw [register_prodCount]
        exact ⟨h1, register_nodup hnd _ _⟩
      | resetToBaseline =>
        exact (reset_trace_spec s hnd h1).1
    rw [runOps] at ht
    rcases List.mem_append.1 ht with ht | ht
    · exact hop t ht
    · have hmem : (opTrace s op).getLast?.getD s ∈ opTrace s op :=
        getLastD_mem _ _ (opTrace_ne_nil s op)
    -- invariant at the handed-over state
      have hinv := hop _ hmem
      exact ih _ hinv.2 hinv.1 t ht

/-- C1 counterexample: starting from a registry where version 2 is
`Production`, the archive-then-promote sequence of `reset_to_baseline`
produces an externally observable intermediate state in which zero versions
hold `Production` (the state after the archive call, before the promote
call), so the swap is not a single transition without observable
intermediate states. -/
theorem C1_counterexample :
    prodCount regEx = 1 ∧
    resetToBaselineTrace regEx =
      [[{ version := 1, runId := 11, metrics := [], stage := Stage.archived },
        { version := 2, runId := 22, metrics := [], stage := Stage.archived }],
       [{ version := 1, runId := 11, metrics := [], stage := Stage.production },
        { version := 2, runId := 22, metrics := [], stage := Stage.archived }]] ∧
    prodCount
      [{ version := 1, runId := 11, metrics := [], stage := Stage.archived },
       { version := 2, runId := 22, metrics := [], stage := Stage.archived }]
      = 0 := by
  decide

/-- C1 amended: over every sequence of registrations and
`reset_to_baseline` promotions starting from an empty registry, at most one
version holds `Production` in every externally observable state (never two);
the promotion sequence ends in the same state as the spec's atomic swap
(prior `Production` archived, version 1 promoted), but it takes two separate
transitions, and whenever a prior `Production` version exists there is an
externally observable intermediate state in which zero versions hold
`Production`. -/
theorem C1_single_production_amended :
    (∀ (ops : List RegOp), ∀ t ∈ runOps [] ops, prodCount t ≤ 1) ∧
    (∀ s : RegState, versionsNodup s → prodCount s ≤ 1 →
      ((resetToBaselineTrace s).getLast?.getD s = transition_to_production s 1) ∧
      (∀ m ∈ s, m.stage = Stage.production →
        ∃ t ∈ resetToBaselineTrace s, prodCount t = 0)) := by
  constructor
  · intro ops t ht
    exact (runOps_inv ops [] (by simp [versionsNodup]) (by simp [prodCount]) t ht).1
  · intro s hnd h1
    exact ⟨(reset_trace_spec s hnd h1).2.1, (reset_trace_spec s hnd h1).2.2⟩

/-- Witness for the amended C1 at the concrete registry `regEx`. -/
theorem C1_witness :
    (resetToBaselineTrace regEx).getLast?.getD regEx
      = transition_to_production regEx 1 :=
  (C1_single_production_amended.2 regEx (by unfold versionsNodup; decide)
    (by decide)).1

/-- C2: `auto_promote_if_better` promotes the registered candidate
unconditionally when no version is in `Production`; otherwise it promotes iff
the candidate's metric strictly beats the production's in the direction of
`higher_is_better` (ties and losses leave the registry untouched and return
no version); on a win the resulting registry has exactly the candidate's
version in `Production`. -/
theorem C2_auto_promote (s : RegState) (run_id : Nat) (metric_name : String)
    (hib : Bool) (cand : ModelVersion)
    (hc : s.find? (fun m => m.runId == run_id) = some cand) :
    (currentProduction s = Option.none →
      auto_promote_if_better s run_id metric_name hib
        = PromoteOutcome.promoted cand.version
            (transition_to_production s cand.version)) ∧
    (∀ prod cv pv, currentProduction s = some prod →
      lookupMetric cand.metrics metric_name = some cv →
      lookupMetric prod.metrics metric_name = some pv →
      ((auto_promote_if_better s run_id metric_name hib
          = PromoteOutcome.promoted cand.version
              (transition_to_production s cand.version))
        ↔ (if hib then pv < cv else cv < pv)) ∧
      (¬ (if hib then pv < cv else cv < pv) →
        auto_promote_if_better s run_id metric_name hib
          = PromoteOutcome.notPromoted s)) ∧
    (∀ m ∈ transition_to_production s cand.version,
      (m.stage = Stage.production ↔ m.version = cand.version)) := by
  refine ⟨?_, ?_, ?_⟩
  · intro hnone
    simp only [auto_promote_if_better, hc, hnone]
  · intro prod cv pv hprod hcv hpv
    have hbeats : metricBeats hib cv pv = true ↔ (if hib then pv < cv else cv < pv) := by
      cases hib <;> simp [metricBeats]
    have hunfold : auto_promote_if_better s run_id metric_name hib
        = if metricBeats hib cv pv then
            PromoteOutcome.promoted cand.version
              (transition_to_production s cand.version)
          else PromoteOutcome.notPromoted s := by
      simp only [auto_promote_if_better, hc, hprod, hcv, hpv]
    constructor
    · by_cases hb : metricBeats hib cv pv = true
      · rw [hunfold, if_pos hb]
        exact iff_of_true rfl (hbeats.1 hb)
      · rw [hunfold, if_neg hb]
        apply iff_of_false
        · intro h
          exact PromoteOutcome.noConfusion h
        · intro h
          exact hb (hbeats.2 h)
    · intro hlt
      have hb : ¬ metricBeats hib cv pv = true := fun h => hlt (hbeats.1 h)
      rw [hunfold, if_neg hb]
  · intro m hm
    rcases List.mem_map.1 hm with ⟨a, ha, rfl⟩
    by_cases hv : a.version = cand.version
    · simp [hv]
    · by_cases hp : a.stage = Stage.production
      · simp [hv, hp]
      · simp [hv, hp]

/-- Witness for C2: the version-2 candidate with auc 9/10 beats the
version-1 production with auc 7/10 and is promoted. -/
theorem C2_witness :
    auto_promote_if_better regW 22 "auc" true
      = PromoteOutcome.promoted 2 (transition_to_production regW 2) :=
  ((C2_auto_promote regW 22 "auc" true
      { version := 2, runId := 22, metrics := [("auc", 9/10)], stage := Stage.none }
      rfl).2.1
    { version := 1, runId := 11, metrics := [("auc", 7/10)], stage := Stage.production }
    (9/10) (7/10) rfl rfl rfl).1.mpr (by norm_num)
